import Mathlib

/-!
Verification of the NorthStarGoals synchronization engine
(`src/services/syncService.ts` and the sync orchestration inside
`src/components/TodoList.tsx`), shallowly embedded in Lean 4.

Records (todos, routines, notes) are embedded with the fields the merge
algorithm reads (`id`, optional `createdAt`, optional `resolvedAt`) plus an
opaque `payload` standing for all remaining fields.  JavaScript `Map`
objects are embedded as association lists with `Map.set` semantics
(replace-in-place on an existing key, append otherwise).  Timestamps are
millisecond integers; JavaScript truthiness of `x || y` on optional numbers
is embedded explicitly (absent or zero falls through).
-/

namespace NorthStar

/-- A syncable record, as constrained by `mergeByIdAndTimestamp`:
`{ id: string; createdAt?: number; resolvedAt?: number }`, with `payload`
standing for every other field of a `Todo`/`Routine`/`Note`. -/
structure Rec where
  id : String
  createdAt : Option Nat
  resolvedAt : Option Nat
  payload : Nat
deriving DecidableEq

/-- JavaScript `a || b` on an optional number `a`: `undefined` and `0` are
falsy, so they fall through to `b`. -/
def orFalsy (a : Option Nat) (b : Nat) : Nat :=
  match a with
  | some v => if v = 0 then b else v
  | none => b

/-- The timestamp the merger compares:
`item.resolvedAt || item.createdAt || 0` (syncService.ts lines 294-295). -/
def freshness (r : Rec) : Nat :=
  orFalsy r.resolvedAt (orFalsy r.createdAt 0)

/-- Freshness as the specification words it: resolved timestamp if present,
else creation timestamp, else zero. -/
def specFreshness (r : Rec) : Nat :=
  (r.resolvedAt.getD (r.createdAt.getD 0))

/-- `Map.set` on an association list: replace in place if the key exists,
append otherwise (JavaScript `Map` insertion-order semantics). -/
def mapSet : List (String × Rec) → String → Rec → List (String × Rec)
  | [], k, v => [(k, v)]
  | p :: rest, k, v => if p.1 = k then (k, v) :: rest else p :: mapSet rest k v

/-- `Map.get` on an association list. -/
def mapGet : List (String × Rec) → String → Option Rec
  | [], _ => none
  | p :: rest, k => if p.1 = k then some p.2 else mapGet rest k

/-- `remoteItems.forEach(item => merged.set(item.id, item))`. -/
def initMap (remoteItems : List Rec) : List (String × Rec) :=
  remoteItems.foldl (fun m item => mapSet m item.id item) []

/-- One iteration of the `localItems.forEach` body of
`mergeByIdAndTimestamp`: insert a local item absent from the map, replace
the mapped item when the local one is strictly fresher. -/
def mergeStep (m : List (String × Rec)) (localItem : Rec) : List (String × Rec) :=
  match mapGet m localItem.id with
  | none => mapSet m localItem.id localItem
  | some remoteItem =>
    if freshness localItem > freshness remoteItem then
      mapSet m localItem.id localItem
    else
      m

/-- The `Map` built by `mergeByIdAndTimestamp` before `Array.from`. -/
def mergeMap (localItems remoteItems : List Rec) : List (String × Rec) :=
  localItems.foldl mergeStep (initMap remoteItems)

/-- `mergeByIdAndTimestamp` (syncService.ts lines 276-306):
start from the remote items keyed by id, then fold the local items in,
preferring strictly fresher local versions; return the map's values. -/
def mergeByIdAndTimestamp (localItems remoteItems : List Rec) : List Rec :=
  (mergeMap localItems remoteItems).map Prod.snd

/-- First record with the given id, if any. -/
def findById (l : List Rec) (i : String) : Option Rec :=
  l.find? (fun r => r.id = i)

/-- The ids of a record list are pairwise distinct. -/
def NodupIds (l : List Rec) : Prop := (l.map Rec.id).Nodup

/-- Every timestamp that is present is positive (timestamps in the
application are `Date.now()` epoch milliseconds). -/
def PosStamps (l : List Rec) : Prop :=
  ∀ r ∈ l, (∀ v, r.resolvedAt = some v → 0 < v) ∧
    (∀ v, r.createdAt = some v → 0 < v)

/-- A well-formed record list: distinct ids, positive timestamps. -/
def WellFormed (l : List Rec) : Prop := NodupIds l ∧ PosStamps l

instance (l : List Rec) : Decidable (NodupIds l) := by
  unfold NodupIds; infer_instance

instance (l : List Rec) : Decidable (PosStamps l) := by
  unfold PosStamps; infer_instance

instance (l : List Rec) : Decidable (WellFormed l) := by
  unfold WellFormed; infer_instance

theorem freshness_eq_specFreshness (r : Rec)
    (h1 : ∀ v, r.resolvedAt = some v → 0 < v)
    (h2 : ∀ v, r.createdAt = some v → 0 < v) :
    freshness r = specFreshness r := by
  unfold freshness specFreshness orFalsy
  cases hr : r.resolvedAt with
  | some v =>
    have hv := h1 v hr
    simp [Nat.pos_iff_ne_zero.mp hv]
  | none =>
    cases hc : r.createdAt with
    | some w =>
      have hw := h2 w hc
      simp [Nat.pos_iff_ne_zero.mp hw]
    | none => simp

theorem mapGet_mapSet (m : List (String × Rec)) (k k' : String) (v : Rec) :
    mapGet (mapSet m k v) k' = if k' = k then some v else mapGet m k' := by
  induction m with
  | nil =>
    by_cases h : k' = k
    · simp [mapSet, mapGet, h]
    · simp [mapSet, mapGet, h, Ne.symm h]
  | cons p rest ih =>
    by_cases hp : p.1 = k
    · by_cases h : k' = k
      · simp [mapSet, mapGet, hp, h]
      · have h1 : ¬ k = k' := fun hh => h hh.symm
        have h2 : ¬ p.1 = k' := hp ▸ h1
        simp [mapSet, mapGet, hp, h, h1, h2]
    · by_cases h : k' = p.1
      · have h1 : ¬ k' = k := fun hh => hp (h.symm.trans hh)
        simp [mapSet, mapGet, hp, h.symm, h1]
      · simp [mapSet, mapGet, hp, Ne.symm h, ih]

theorem mapGet_foldl_set_not_mem (B : List Rec) :
    ∀ (m : List (String × Rec)) (i : String), i ∉ B.map Rec.id →
    mapGet (B.foldl (fun acc item => mapSet acc item.id item) m) i = mapGet m i := by
  induction B with
  | nil => intro m i _; rfl
  | cons b rest ih =>
    intro m i h
    simp only [List.map_cons, List.mem_cons, not_or] at h
    simp only [List.foldl_cons]
    rw [ih _ _ h.2, mapGet_mapSet, if_neg h.1]

theorem mapGet_foldl_set (B : List Rec) :
    ∀ (m : List (String × Rec)) (i : String), NodupIds B →
    mapGet (B.foldl (fun acc item => mapSet acc item.id item) m) i =
      match findById B i with
      | some r => some r
      | none => mapGet m i := by
  induction B with
  | nil => intro m i _; rfl
  | cons b rest ih =>
    intro m i hB
    simp only [NodupIds, List.map_cons, List.nodup_cons] at hB
    by_cases hb : b.id = i
    · have hnot : i ∉ rest.map Rec.id := hb ▸ hB.1
      simp only [List.foldl_cons]
      rw [mapGet_foldl_set_not_mem rest _ i hnot, mapGet_mapSet, if_pos hb.symm]
      simp [findById, List.find?, hb]
    · simp only [List.foldl_cons]
      rw [ih _ _ hB.2]
      have hfind : findById (b :: rest) i = findById rest i := by
        simp [findById, List.find?, hb]
      rw [hfind]
      cases hf : findById rest i with
      | some r => rfl
      | none => rw [mapGet_mapSet, if_neg (fun hh => hb hh.symm)]

theorem mapGet_initMap (B : List Rec) (i : String) (hB : NodupIds B) :
    mapGet (initMap B) i = findById B i := by
  unfold initMap
  rw [mapGet_foldl_set B [] i hB]
  cases findById B i <;> rfl

theorem mapGet_mergeStep_ne (m : List (String × Rec)) (a : Rec) (i : String)
    (h : ¬ a.id = i) : mapGet (mergeStep m a) i = mapGet m i := by
  unfold mergeStep
  cases hg : mapGet m a.id with
  | none =>
    show mapGet (mapSet m a.id a) i = mapGet m i
    rw [mapGet_mapSet, if_neg (fun hh => h hh.symm)]
  | some w =>
    show mapGet (if freshness a > freshness w then mapSet m a.id a else m) i = mapGet m i
    by_cases hf : freshness a > freshness w
    · rw [if_pos hf, mapGet_mapSet, if_neg (fun hh => h hh.symm)]
    · rw [if_neg hf]

theorem mapGet_foldl_mergeStep_not_mem (A : List Rec) :
    ∀ (m : List (String × Rec)) (i : String), i ∉ A.map Rec.id →
    mapGet (A.foldl mergeStep m) i = mapGet m i := by
  induction A with
  | nil => intro m i _; rfl
  | cons a rest ih =>
    intro m i h
    simp only [List.map_cons, List.mem_cons, not_or] at h
    simp only [List.foldl_cons]
    rw [ih _ _ h.2, mapGet_mergeStep_ne m a i (fun hh => h.1 hh.symm)]

theorem mapGet_foldl_mergeStep (A : List Rec) :
    ∀ (m : List (String × Rec)) (i : String), NodupIds A →
    mapGet (A.foldl mergeStep m) i =
      match findById A i, mapGet m i with
      | none, w => w
      | some x, none => some x
      | some x, some y => some (if freshness x > freshness y then x else y) := by
  induction A with
  | nil =>
    intro m i _
    simp only [List.foldl_nil]
    cases hmi : mapGet m i <;> rfl
  | cons a rest ih =>
    intro m i hA
    simp only [NodupIds, List.map_cons, List.nodup_cons] at hA
    by_cases hb : a.id = i
    · have hnot : i ∉ rest.map Rec.id := hb ▸ hA.1
      have hfind : findById (a :: rest) i = some a := by
        simp [findById, List.find?, hb]
      simp only [List.foldl_cons]
      rw [mapGet_foldl_mergeStep_not_mem rest _ i hnot, hfind]
      unfold mergeStep
      cases hg : mapGet m a.id with
      | none =>
        have hmi : mapGet m i = none := hb ▸ hg
        rw [hmi]
        show mapGet (mapSet m a.id a) i = some a
        rw [mapGet_mapSet, if_pos hb.symm]
      | some w =>
        have hmi : mapGet m i = some w := hb ▸ hg
        rw [hmi]
        show mapGet (if freshness a > freshness w then mapSet m a.id a else m) i =
          some (if freshness a > freshness w then a else w)
        by_cases hf : freshness a > freshness w
        · rw [if_pos hf, if_pos hf, mapGet_mapSet, if_pos hb.symm]
        · rw [if_neg hf, if_neg hf, hmi]
    · have hfind : findById (a :: rest) i = findById rest i := by
        simp [findById, List.find?, hb]
      simp only [List.foldl_cons]
      rw [ih _ _ hA.2, mapGet_mergeStep_ne m a i hb, hfind]

theorem mapGet_mergeMap (A B : List Rec) (i : String)
    (hA : NodupIds A) (hB : NodupIds B) :
    mapGet (mergeMap A B) i =
      match findById A i, findById B i with
      | none, w => w
      | some x, none => some x
      | some x, some y => some (if freshness x > freshness y then x else y) := by
  unfold mergeMap
  rw [mapGet_foldl_mergeStep A _ i hA, mapGet_initMap B i hB]

/-- Every binding in the map binds a record under its own id. -/
def KeysMatch (m : List (String × Rec)) : Prop := ∀ p ∈ m, p.1 = p.2.id

/-- The map's keys are pairwise distinct (true of JavaScript `Map`s). -/
def KeysNodup (m : List (String × Rec)) : Prop := (m.map Prod.fst).Nodup

theorem keysMatch_mapSet (m : List (String × Rec)) (v : Rec)
    (h : KeysMatch m) : KeysMatch (mapSet m v.id v) := by
  induction m with
  | nil =>
    intro p hp
    simp only [mapSet, List.mem_singleton] at hp
    rw [hp]
  | cons q rest ih =>
    intro p hp
    by_cases hq : q.1 = v.id
    · simp only [mapSet, if_pos hq, List.mem_cons] at hp
      rcases hp with hp | hp
      · rw [hp]
      · exact h p (List.mem_cons_of_mem q hp)
    · simp only [mapSet, if_neg hq, List.mem_cons] at hp
      rcases hp with hp | hp
      · rw [hp]; exact h q (List.mem_cons_self q rest)
      · exact ih (fun p' hp' => h p' (List.mem_cons_of_mem q hp')) p hp

theorem mem_keys_mapSet (m : List (String × Rec)) (k : String) (v : Rec)
    (k' : String) (h : k' ∈ (mapSet m k v).map Prod.fst) :
    k' ∈ m.map Prod.fst ∨ k' = k := by
  induction m with
  | nil =>
    simp only [mapSet, List.map_cons, List.map_nil, List.mem_singleton] at h
    right; exact h
  | cons q rest ih =>
    by_cases hq : q.1 = k
    · simp only [mapSet, if_pos hq, List.map_cons, List.mem_cons] at h
      rcases h with h | h
      · right; exact h
      · left; simp only [List.map_cons, List.mem_cons]; right; exact h
    · simp only [mapSet, if_neg hq, List.map_cons, List.mem_cons] at h
      rcases h with h | h
      · left; simp only [List.map_cons, List.mem_cons]; left; exact h
      · rcases ih h with h' | h'
        · left; simp only [List.map_cons, List.mem_cons]; right; exact h'
        · right; exact h'

theorem keysNodup_mapSet (m : List (String × Rec)) (k : String) (v : Rec)
    (h : KeysNodup m) : KeysNodup (mapSet m k v) := by
  induction m with
  | nil =>
    simp [KeysNodup, mapSet]
  | cons q rest ih =>
    simp only [KeysNodup, List.map_cons, List.nodup_cons] at h
    by_cases hq : q.1 = k
    · simp only [KeysNodup, mapSet, if_pos hq, List.map_cons, List.nodup_cons]
      exact ⟨hq ▸ h.1, h.2⟩
    · simp only [KeysNodup, mapSet, if_neg hq, List.map_cons, List.nodup_cons]
      refine ⟨fun hmem => ?_, ih h.2⟩
      rcases mem_keys_mapSet rest k v q.1 hmem with h' | h'
      · exact h.1 h'
      · exact hq h'

theorem keysMatch_mergeStep (m : List (String × Rec)) (a : Rec)
    (h : KeysMatch m) : KeysMatch (mergeStep m a) := by
  unfold mergeStep
  cases mapGet m a.id with
  | none => exact keysMatch_mapSet m a h
  | some w =>
    show KeysMatch (if freshness a > freshness w then mapSet m a.id a else m)
    by_cases hf : freshness a > freshness w
    · rw [if_pos hf]; exact keysMatch_mapSet m a h
    · rw [if_neg hf]; exact h

theorem keysNodup_mergeStep (m : List (String × Rec)) (a : Rec)
    (h : KeysNodup m) : KeysNodup (mergeStep m a) := by
  unfold mergeStep
  cases mapGet m a.id with
  | none => exact keysNodup_mapSet m a.id a h
  | some w =>
    show KeysNodup (if freshness a > freshness w then mapSet m a.id a else m)
    by_cases hf : freshness a > freshness w
    · rw [if_pos hf]; exact keysNodup_mapSet m a.id a h
    · rw [if_neg hf]; exact h

theorem keysMatch_foldl_set (B : List Rec) :
    ∀ m, KeysMatch m →
      KeysMatch (B.foldl (fun acc item => mapSet acc item.id item) m) := by
  induction B with
  | nil => intro m h; exact h
  | cons b rest ih =>
    intro m h
    simp only [List.foldl_cons]
    exact ih _ (keysMatch_mapSet m b h)

theorem keysNodup_foldl_set (B : List Rec) :
    ∀ m, KeysNodup m →
      KeysNodup (B.foldl (fun acc item => mapSet acc item.id item) m) := by
  induction B with
  | nil => intro m h; exact h
  | cons b rest ih =>
    intro m h
    simp only [List.foldl_cons]
    exact ih _ (keysNodup_mapSet m b.id b h)

theorem keysMatch_mergeMap (A B : List Rec) : KeysMatch (mergeMap A B) := by
  unfold mergeMap initMap
  have hbase : KeysMatch (initMap B) :=
    keysMatch_foldl_set B [] (fun p hp => absurd hp (List.not_mem_nil p))
  have : ∀ m, KeysMatch m → KeysMatch (A.foldl mergeStep m) := by
    induction A with
    | nil => intro m h; exact h
    | cons a rest ih =>
      intro m h
      simp only [List.foldl_cons]
      exact ih _ (keysMatch_mergeStep m a h)
  exact this _ hbase

theorem keysNodup_mergeMap (A B : List Rec) : KeysNodup (mergeMap A B) := by
  unfold mergeMap initMap
  have hbase : KeysNodup (initMap B) :=
    keysNodup_foldl_set B [] (by simp [KeysNodup])
  have : ∀ m, KeysNodup m → KeysNodup (A.foldl mergeStep m) := by
    induction A with
    | nil => intro m h; exact h
    | cons a rest ih =>
      intro m h
      simp only [List.foldl_cons]
      exact ih _ (keysNodup_mergeStep m a h)
  exact this _ hbase

theorem mapGet_mem_keys (m : List (String × Rec)) (k : String) (v : Rec)
    (h : mapGet m k = some v) : k ∈ m.map Prod.fst := by
  induction m with
  | nil => simp [mapGet] at h
  | cons p rest ih =>
    by_cases hp : p.1 = k
    · simp only [List.map_cons, List.mem_cons]; left; exact hp.symm
    · simp only [mapGet, if_neg hp] at h
      simp only [List.map_cons, List.mem_cons]; right; exact ih h

theorem mem_values_iff (m : List (String × Rec)) (hm : KeysMatch m)
    (hn : KeysNodup m) (r : Rec) :
    r ∈ m.map Prod.snd ↔ mapGet m r.id = some r := by
  induction m with
  | nil => simp [mapGet]
  | cons p rest ih =>
    have hm' : KeysMatch rest := fun q hq => hm q (List.mem_cons_of_mem p hq)
    simp only [KeysNodup, List.map_cons, List.nodup_cons] at hn
    have ihr := ih hm' hn.2
    constructor
    · intro h
      simp only [List.map_cons, List.mem_cons] at h
      rcases h with h | h
      · have hp : p.1 = r.id := by
          rw [hm p (List.mem_cons_self p rest), h]
        simp [mapGet, hp, h]
      · have hg := ihr.mp h
        have hkeys : r.id ∈ rest.map Prod.fst := mapGet_mem_keys rest r.id r hg
        have hp : ¬ p.1 = r.id := fun hh => hn.1 (hh ▸ hkeys)
        simp [mapGet, if_neg hp, hg]
    · intro h
      by_cases hp : p.1 = r.id
      · simp only [mapGet, if_pos hp, Option.some_inj] at h
        simp [List.map_cons, h]
      · simp only [mapGet, if_neg hp] at h
        simp only [List.map_cons, List.mem_cons]
        right; exact ihr.mpr h

theorem findById_cons (x : Rec) (l : List Rec) (i : String) :
    findById (x :: l) i = if x.id = i then some x else findById l i := by
  by_cases h : x.id = i <;> simp [findById, List.find?, h]

theorem findById_values (m : List (String × Rec)) (hm : KeysMatch m)
    (i : String) : findById (m.map Prod.snd) i = mapGet m i := by
  induction m with
  | nil => rfl
  | cons p rest ih =>
    have hm' : KeysMatch rest := fun q hq => hm q (List.mem_cons_of_mem p hq)
    have hp := hm p (List.mem_cons_self p rest)
    by_cases hi : p.1 = i
    · have hpi : p.2.id = i := hp ▸ hi
      simp only [List.map_cons]
      rw [findById_cons, if_pos hpi]
      simp [mapGet, hi]
    · have hne : ¬ p.2.id = i := fun hh => hi (hp.symm ▸ hh)
      simp only [List.map_cons]
      rw [findById_cons, if_neg hne]
      simp only [mapGet, if_neg hi]
      exact ih hm'

theorem nodupIds_values (m : List (String × Rec)) (hm : KeysMatch m)
    (hn : KeysNodup m) : NodupIds (m.map Prod.snd) := by
  unfold NodupIds
  have heq : (m.map Prod.snd).map Rec.id = m.map Prod.fst := by
    rw [List.map_map]
    exact List.map_congr_left (fun p hp => (hm p hp).symm)
  rw [heq]; exact hn

theorem mem_mergeByIdAndTimestamp_iff (A B : List Rec) (r : Rec) :
    r ∈ mergeByIdAndTimestamp A B ↔ mapGet (mergeMap A B) r.id = some r := by
  unfold mergeByIdAndTimestamp
  exact mem_values_iff (mergeMap A B) (keysMatch_mergeMap A B)
    (keysNodup_mergeMap A B) r

theorem nodupIds_mergeByIdAndTimestamp (A B : List Rec) :
    NodupIds (mergeByIdAndTimestamp A B) :=
  nodupIds_values (mergeMap A B) (keysMatch_mergeMap A B) (keysNodup_mergeMap A B)

theorem findById_mergeByIdAndTimestamp (A B : List Rec) (i : String) :
    findById (mergeByIdAndTimestamp A B) i = mapGet (mergeMap A B) i :=
  findById_values (mergeMap A B) (keysMatch_mergeMap A B) i

theorem findById_id (l : List Rec) (i : String) (r : Rec)
    (h : findById l i = some r) : r.id = i := by
  have h2 := List.find?_some h
  simpa using h2

theorem findById_mem (l : List Rec) (i : String) (r : Rec)
    (h : findById l i = some r) : r ∈ l :=
  List.mem_of_find?_eq_some h

/-- C4: for well-formed inputs, an id present in both lists yields the
record with the strictly greater freshness (spec freshness: resolved
timestamp if present, else creation timestamp, else zero), ties yielding
the remote (second-argument) record; an id present in only one input
yields that input's record unchanged. -/
theorem mergeByIdAndTimestamp_correct (A B : List Rec) (i : String)
    (hA : WellFormed A) (hB : WellFormed B) :
    (∀ a, findById A i = some a → findById B i = none →
      a ∈ mergeByIdAndTimestamp A B ∧
        findById (mergeByIdAndTimestamp A B) i = some a) ∧
    (∀ b, findById B i = some b → findById A i = none →
      b ∈ mergeByIdAndTimestamp A B ∧
        findById (mergeByIdAndTimestamp A B) i = some b) ∧
    (∀ a b, findById A i = some a → findById B i = some b →
      findById (mergeByIdAndTimestamp A B) i =
          some (if specFreshness a > specFreshness b then a else b) ∧
        (if specFreshness a > specFreshness b then a else b) ∈
          mergeByIdAndTimestamp A B) := by
  have hmap := mapGet_mergeMap A B i hA.1 hB.1
  have hout := findById_mergeByIdAndTimestamp A B i
  refine ⟨?_, ?_, ?_⟩
  · intro a ha hb
    have hmap1 : mapGet (mergeMap A B) i = some a := by rw [hmap, ha, hb]
    have hid : a.id = i := findById_id A i a ha
    refine ⟨?_, by rw [hout, hmap1]⟩
    rw [mem_mergeByIdAndTimestamp_iff, hid, hmap1]
  · intro b hb ha
    have hmap1 : mapGet (mergeMap A B) i = some b := by rw [hmap, ha, hb]
    have hid : b.id = i := findById_id B i b hb
    refine ⟨?_, by rw [hout, hmap1]⟩
    rw [mem_mergeByIdAndTimestamp_iff, hid, hmap1]
  · intro a b ha hb
    have hidA : a.id = i := findById_id A i a ha
    have hidB : b.id = i := findById_id B i b hb
    have hfa : freshness a = specFreshness a :=
      freshness_eq_specFreshness a (hA.2 a (findById_mem A i a ha)).1
        (hA.2 a (findById_mem A i a ha)).2
    have hfb : freshness b = specFreshness b :=
      freshness_eq_specFreshness b (hB.2 b (findById_mem B i b hb)).1
        (hB.2 b (findById_mem B i b hb)).2
    have hmap1 : mapGet (mergeMap A B) i =
        some (if freshness a > freshness b then a else b) := by
      rw [hmap, ha, hb]
    rw [hfa, hfb] at hmap1
    refine ⟨by rw [hout, hmap1], ?_⟩
    by_cases hf : specFreshness a > specFreshness b
    · rw [if_pos hf] at hmap1 ⊢
      rw [mem_mergeByIdAndTimestamp_iff, hidA, hmap1]
    · rw [if_neg hf] at hmap1 ⊢
      rw [mem_mergeByIdAndTimestamp_iff, hidB, hmap1]

theorem mergeByIdAndTimestamp_correct_witness :
    WellFormed [(⟨"x", some 10, none, 0⟩ : Rec)] ∧
    WellFormed [(⟨"x", some 5, none, 1⟩ : Rec)] ∧
    (⟨"x", some 10, none, 0⟩ : Rec) ∈
      mergeByIdAndTimestamp [⟨"x", some 10, none, 0⟩] [⟨"x", some 5, none, 1⟩] := by
  refine ⟨by decide, by decide, ?_⟩
  have h := mergeByIdAndTimestamp_correct [⟨"x", some 10, none, 0⟩]
      [⟨"x", some 5, none, 1⟩] "x" (by decide) (by decide)
  have h3 := h.2.2 ⟨"x", some 10, none, 0⟩ ⟨"x", some 5, none, 1⟩
      (by decide) (by decide)
  have hif : (if specFreshness (⟨"x", some 10, none, 0⟩ : Rec) >
        specFreshness (⟨"x", some 5, none, 1⟩ : Rec) then
        (⟨"x", some 10, none, 0⟩ : Rec) else ⟨"x", some 5, none, 1⟩) =
      ⟨"x", some 10, none, 0⟩ := by decide
  exact hif ▸ h3.2

/-- C9: the Record Merger is idempotent: for record lists with distinct
ids, `merge(A, merge(A,B))` and `merge(A,B)` contain exactly the same
records (ordering disregarded). -/
theorem mergeByIdAndTimestamp_idempotent (A B : List Rec)
    (hA : NodupIds A) (hB : NodupIds B) (r : Rec) :
    r ∈ mergeByIdAndTimestamp A (mergeByIdAndTimestamp A B) ↔
      r ∈ mergeByIdAndTimestamp A B := by
  have hM : NodupIds (mergeByIdAndTimestamp A B) :=
    nodupIds_mergeByIdAndTimestamp A B
  have key : ∀ i, mapGet (mergeMap A (mergeByIdAndTimestamp A B)) i =
      mapGet (mergeMap A B) i := by
    intro i
    rw [mapGet_mergeMap A (mergeByIdAndTimestamp A B) i hA hM]
    rw [findById_mergeByIdAndTimestamp A B i]
    rw [mapGet_mergeMap A B i hA hB]
    cases ha : findById A i with
    | none => cases hb : findById B i <;> rfl
    | some a =>
      cases hb : findById B i with
      | none => simp
      | some b =>
        by_cases hf : freshness a > freshness b
        · simp [hf]
        · simp [hf]
  rw [mem_mergeByIdAndTimestamp_iff, mem_mergeByIdAndTimestamp_iff, key r.id]

theorem mergeByIdAndTimestamp_idempotent_witness :
    NodupIds [(⟨"a", some 3, none, 0⟩ : Rec)] ∧
    NodupIds [(⟨"b", some 4, none, 0⟩ : Rec)] ∧
    ((⟨"a", some 3, none, 0⟩ : Rec) ∈
        mergeByIdAndTimestamp [⟨"a", some 3, none, 0⟩]
          (mergeByIdAndTimestamp [⟨"a", some 3, none, 0⟩] [⟨"b", some 4, none, 0⟩]) ↔
      (⟨"a", some 3, none, 0⟩ : Rec) ∈
        mergeByIdAndTimestamp [⟨"a", some 3, none, 0⟩] [⟨"b", some 4, none, 0⟩]) :=
  ⟨by decide, by decide,
    mergeByIdAndTimestamp_idempotent [⟨"a", some 3, none, 0⟩]
      [⟨"b", some 4, none, 0⟩] (by decide) (by decide) ⟨"a", some 3, none, 0⟩⟩

/-- Persisted sync state (`SyncState` in syncService.ts, kept in
localStorage under `northstar_sync_state`).  The device id is modelled as
always present. -/
structure SyncState where
  syncCode : Option String
  deviceId : String
  enabled : Bool
  lastSyncedAt : Option Int
deriving DecidableEq

/-- The three record collections the engine synchronizes. -/
structure LocalData where
  todos : List Rec
  routines : List Rec
  notes : List Rec
deriving DecidableEq

/-- A sync room document (`SyncData` in syncService.ts): the collections,
the server-assigned `lastUpdated` timestamp in milliseconds (`null`
possible), and the id of the writing device. -/
structure SyncData where
  todos : List Rec
  routines : List Rec
  notes : List Rec
  lastUpdated : Option Int
  deviceId : String
deriving DecidableEq

/-- Outcome of one `pushChanges` call: the returned boolean, the remote
write performed (if any), and the persisted state afterwards. -/
structure PushResult where
  returned : Bool
  written : Option SyncData
  state : SyncState
deriving DecidableEq

/-- `pushChanges` (syncService.ts lines 165-198): return `false` without
writing when sync is disabled or no room code is configured; otherwise
write the snapshot under this device's id and record `lastSyncedAt :=
Date.now()`.  `ok` models transport success (a thrown write is caught,
returns `false`, saves nothing); `now` is `Date.now()`, `serverNow` the
server timestamp assigned to the write. -/
def pushChanges (state : SyncState) (data : LocalData) (ok : Bool)
    (now serverNow : Int) : PushResult :=
  if state.enabled = false ∨ state.syncCode = none then
    ⟨false, none, state⟩
  else if ok then
    ⟨true,
      some ⟨data.todos, data.routines, data.notes, some serverNow, state.deviceId⟩,
      { state with lastSyncedAt := some now }⟩
  else
    ⟨false, none, state⟩

/-- The TodoList orchestrator's per-session refs guarding outgoing pushes
(TodoList.tsx lines 834-838). -/
structure OrchFlags where
  isRemoteUpdate : Bool
  isSyncInitializing : Bool
  hasRemoteBaseline : Bool
deriving DecidableEq

/-- Guard of the debounced push effect (TodoList.tsx lines 1199-1220):
a push is scheduled only when none of the early returns fire. -/
def debouncedPushFires (flags : OrchFlags) (enabled : Bool) : Bool :=
  !flags.isRemoteUpdate && !flags.isSyncInitializing && enabled &&
    flags.hasRemoteBaseline

/-- Guard of the visibility-change immediate flush
(TodoList.tsx lines 1223-1233). -/
def visibilityPushFires (flags : OrchFlags) (enabled hidden : Bool) : Bool :=
  !flags.isSyncInitializing && flags.hasRemoteBaseline && hidden && enabled

/-- Observable effect of one delivery to the `onSnapshot` handler
installed by `subscribeToChanges` (syncService.ts lines 215-243): whether
`onRoomMissing` fired, the argument `onDataChange` was invoked with (if
it was), and the state written by `saveSyncState` (if any).  `state` is
the sync state captured at subscribe time; `now` is `Date.now()`. -/
structure SnapshotEffect where
  roomMissingFired : Bool
  dataDelivered : Option SyncData
  savedState : Option SyncState
deriving DecidableEq

/-- The snapshot callback of `subscribeToChanges`: a missing document
fires `onRoomMissing`; a snapshot from another device is delivered and
`lastSyncedAt := Date.now()` is saved; a snapshot carrying this device's
own id is discarded entirely. -/
def handleSnapshot (state : SyncState) (snap : Option SyncData) (now : Int) :
    SnapshotEffect :=
  match snap with
  | none => ⟨true, none, none⟩
  | some data =>
    if data.deviceId ≠ state.deviceId then
      ⟨false, some data, some { state with lastSyncedAt := some now }⟩
    else
      ⟨false, none, none⟩

/-- Effect of `applyRemoteData` (TodoList.tsx lines 864-879): adopt the
remote collections, write the snapshot's `lastUpdated` (falling back to
`Date.now()`) under the orchestrator's local last-updated key, and raise
the `isRemoteUpdate` flag while state settles. -/
structure ApplyEffect where
  newLocal : LocalData
  localUpdatedAtSet : Int
  isRemoteUpdateSet : Bool
deriving DecidableEq

def applyRemoteData (data : SyncData) (now : Int) : ApplyEffect :=
  ⟨⟨data.todos, data.routines, data.notes⟩, data.lastUpdated.getD now, true⟩

/-- The orchestrator's `onDataChange` callback (TodoList.tsx lines
1145-1150): unless the effect was torn down, satisfy the baseline latch
and hand the snapshot to `applyRemoteData` — no `deviceId` inspection
happens here. -/
def orchOnDataChange (cancelled : Bool) (flags : OrchFlags)
    (data : SyncData) : OrchFlags × Option SyncData :=
  if cancelled then (flags, none)
  else ({ flags with hasRemoteBaseline := true }, some data)

/-- The room-missing handler (TodoList.tsx lines 1155-1169): if the
baseline latch is already satisfied, do nothing; otherwise satisfy it and
recreate the room by pushing local state.  Returns the new latch value
and whether a recreate push was issued. -/
def handleRoomMissing (baseline : Bool) : Bool × Bool :=
  if baseline then (baseline, false) else (true, true)

/-- Events the subscription can deliver to the orchestrator within one
session: a room-missing notification, or a snapshot from another device
(which satisfies the baseline latch, TodoList.tsx line 1148). -/
inductive SessionEvent where
  | roomMissing
  | foreignSnapshot (data : SyncData)
deriving DecidableEq

/-- One subscription event: the resulting baseline latch and whether the
event issued a recreate push. -/
def stepSession (baseline : Bool) : SessionEvent → Bool × Bool
  | .roomMissing => handleRoomMissing baseline
  | .foreignSnapshot _ => (true, false)

/-- Number of recreate pushes issued over a sequence of delivered
subscription events. -/
def recreateCount (baseline : Bool) : List SessionEvent → Nat
  | [] => 0
  | e :: rest =>
    (if (stepSession baseline e).2 then 1 else 0) +
      recreateCount (stepSession baseline e).1 rest

def localCount (d : LocalData) : Nat :=
  d.todos.length + d.routines.length + d.notes.length

def remoteCount (d : SyncData) : Nat :=
  d.todos.length + d.routines.length + d.notes.length

/-- Direction chosen by `setupSync` when the initial read returned a
document (TodoList.tsx lines 1113-1139). -/
inductive SetupAction where
  | applyRemote
  | pushLocal
  | keep
deriving DecidableEq

/-- `x looksNewer y`: the side with timestamp `x` is present and either
the other side has no timestamp or `x` exceeds it by more than the
1000 ms slack (the `remoteLooksNewer` / `localLooksNewer` expressions of
TodoList.tsx lines 1123-1129). -/
def looksNewer (a b : Option Int) : Bool :=
  match a, b with
  | some r, some l => decide (r > l + 1000)
  | some _, none => true
  | none, _ => false

/-- The `setupSync` direction decision (TodoList.tsx lines 1117-1139):
timestamp comparison with 1000 ms slack, empty-side checks on the record
counts, and a final tie-break preferring the remote when it has any
records. -/
def setupSyncDecision (remote : SyncData) (localCnt : Nat)
    (localUpdatedAt : Option Int) : SetupAction :=
  if looksNewer remote.lastUpdated localUpdatedAt ||
      (decide (0 < remoteCount remote) && decide (localCnt = 0)) then
    .applyRemote
  else if looksNewer localUpdatedAt remote.lastUpdated ||
      (decide (0 < localCnt) && decide (remoteCount remote = 0)) then
    .pushLocal
  else if 0 < remoteCount remote then
    .applyRemote
  else
    .keep

/-- `setupSync`'s handling of a present room document: the decided
direction applied to local state, together with the remote write it
issues (the pushed local snapshot, when the decision is to push). -/
def setupSyncStep (state : SyncState) (remote : SyncData) (ldata : LocalData)
    (localUpdatedAt : Option Int) (now serverNow : Int) :
    LocalData × Option SyncData :=
  match setupSyncDecision remote (localCount ldata) localUpdatedAt with
  | .applyRemote => (⟨remote.todos, remote.routines, remote.notes⟩, none)
  | .pushLocal => (ldata, (pushChanges state ldata true now serverNow).written)
  | .keep => (ldata, none)

/-- `joinSyncRoom` (syncService.ts lines 136-162): `readResult` models the
one-shot `getDoc` — a transport failure (`Except.error`), or the optional
document.  A failure is caught and, like an absent document, yields `none`
with the persisted state untouched; only a successful read saves the
normalized code, `enabled := true` and `lastSyncedAt := Date.now()`. -/
def joinSyncRoom (state : SyncState) (code : String)
    (readResult : Except Unit (Option SyncData)) (now : Int) :
    Option SyncData × SyncState :=
  match readResult with
  | .error _ => (none, state)
  | .ok none => (none, state)
  | .ok (some d) =>
    (some d, ⟨some code.toUpper, state.deviceId, true, some now⟩)

/-- The orchestrator's user-visible sync status (TodoList.tsx line 830). -/
inductive SyncStatus where
  | disconnected
  | connecting
  | connected
  | error
deriving DecidableEq

/-- Result of one `setupSync` bootstrap run. -/
structure SetupResult where
  status : SyncStatus
  baseline : Bool
  newLocal : LocalData
  written : Option SyncData
  subscribed : Bool
deriving DecidableEq

/-- The `setupSync` bootstrap (TodoList.tsx lines 1094-1185): return
early when sync is disabled; with no stored code, `subscribeToChanges`
returns no handle and the status becomes `error`; otherwise read the room
through `joinSyncRoom` (`readResult` models the transport), run the
direction step only when a document came back, then attach the subscriber
(`subscribeOk` models whether a handle was returned). -/
def setupSyncRun (state : SyncState) (ldata : LocalData)
    (localUpdatedAt : Option Int) (readResult : Except Unit (Option SyncData))
    (subscribeOk : Bool) (now serverNow : Int) : SetupResult :=
  if state.enabled = false then ⟨.disconnected, false, ldata, none, false⟩
  else
    match state.syncCode with
    | none => ⟨.error, false, ldata, none, false⟩
    | some code =>
      match (joinSyncRoom state code readResult now).1 with
      | none =>
        if subscribeOk then ⟨.connected, false, ldata, none, true⟩
        else ⟨.error, false, ldata, none, false⟩
      | some remote =>
        if subscribeOk then
          ⟨.connected, true,
            (setupSyncStep state remote ldata localUpdatedAt now serverNow).1,
            (setupSyncStep state remote ldata localUpdatedAt now serverNow).2,
            true⟩
        else
          ⟨.error, true,
            (setupSyncStep state remote ldata localUpdatedAt now serverNow).1,
            (setupSyncStep state remote ldata localUpdatedAt now serverNow).2,
            false⟩

/-- The Record Merger applied per record kind, as `forceSync` does. -/
def mergeData (ldata : LocalData) (remote : SyncData) : LocalData :=
  ⟨mergeByIdAndTimestamp ldata.todos remote.todos,
    mergeByIdAndTimestamp ldata.routines remote.routines,
    mergeByIdAndTimestamp ldata.notes remote.notes⟩

/-- Result of `forceSync`: the returned success flag and `remoteData`
field, the remote write performed (if any), and the state afterwards. -/
structure ForceSyncResult where
  success : Bool
  returnedData : Option SyncData
  written : Option SyncData
  state : SyncState
deriving DecidableEq

/-- `forceSync` (syncService.ts lines 309-417): fail when sync is off or
no code is stored; recreate the room from local data when the document is
missing; otherwise compare `lastUpdated` (`?? 0`) against the persisted
`lastSyncedAt` (`?? 0`): within 5000 ms merge per kind, write the merged
result and return it for local application; else pull (return the remote
document, no write) when the remote is strictly newer; else push the
local snapshot. -/
def forceSync (state : SyncState) (remote : Option SyncData)
    (ldata : LocalData) (now serverNow : Int) : ForceSyncResult :=
  if state.enabled = false ∨ state.syncCode = none then
    ⟨false, none, none, state⟩
  else
    match remote with
    | none =>
      ⟨true, none,
        some ⟨ldata.todos, ldata.routines, ldata.notes, some serverNow,
          state.deviceId⟩,
        { state with lastSyncedAt := some now }⟩
    | some remoteData =>
      if ((remoteData.lastUpdated.getD 0) - (state.lastSyncedAt.getD 0)).natAbs
          < 5000 then
        ⟨true,
          some ⟨(mergeData ldata remoteData).todos,
            (mergeData ldata remoteData).routines,
            (mergeData ldata remoteData).notes,
            remoteData.lastUpdated, state.deviceId⟩,
          some ⟨(mergeData ldata remoteData).todos,
            (mergeData ldata remoteData).routines,
            (mergeData ldata remoteData).notes,
            some serverNow, state.deviceId⟩,
          { state with lastSyncedAt := some now }⟩
      else if remoteData.lastUpdated.getD 0 > state.lastSyncedAt.getD 0 then
        ⟨true, some remoteData, none, { state with lastSyncedAt := some now }⟩
      else
        ⟨true, none,
          some ⟨ldata.todos, ldata.routines, ldata.notes, some serverNow,
            state.deviceId⟩,
          { state with lastSyncedAt := some now }⟩

/-- C1 counterexample: at the start of a session whose persisted state
(restored from localStorage) has sync enabled and a room code, no read of
the room has happened yet in this session (`hasRemoteBaseline = false`),
yet `pushChanges` performs the remote write and returns `true`. -/
theorem pushChanges_ignores_baseline_counterexample :
    (OrchFlags.mk false true false).hasRemoteBaseline = false ∧
    (pushChanges ⟨some "STAR-7X9K", "dev-1", true, some 0⟩ ⟨[], [], []⟩
      true 5 6).returned = true ∧
    (pushChanges ⟨some "STAR-7X9K", "dev-1", true, some 0⟩ ⟨[], [], []⟩
      true 5 6).written = some ⟨[], [], [], some 6, "dev-1"⟩ := by
  refine ⟨rfl, ?_, ?_⟩ <;> rfl

/-- C1 amended: the baseline latch is enforced by the orchestrator, not
by `pushChanges`: while `hasRemoteBaseline` is false neither the
debounced push effect nor the visibility flush invokes `pushChanges`;
`pushChanges` itself no-ops returning `false` exactly when sync is
disabled or no room code is configured, and otherwise (transport
permitting) writes and returns `true` regardless of any baseline. -/
theorem baseline_latch_enforced_by_orchestrator
    (flags : OrchFlags) (enabled hidden : Bool) (state : SyncState)
    (data : LocalData) (ok : Bool) (now serverNow : Int)
    (hflag : flags.hasRemoteBaseline = false) :
    debouncedPushFires flags enabled = false ∧
    visibilityPushFires flags enabled hidden = false ∧
    (state.enabled = false ∨ state.syncCode = none →
      pushChanges state data ok now serverNow = ⟨false, none, state⟩) ∧
    (state.enabled = true → state.syncCode ≠ none →
      (pushChanges state data true now serverNow).returned = true) := by
  refine ⟨?_, ?_, ?_, ?_⟩
  · simp [debouncedPushFires, hflag]
  · simp [visibilityPushFires, hflag]
  · intro h
    unfold pushChanges
    rw [if_pos h]
  · intro h1 h2
    have h3 : ¬ (state.enabled = false ∨ state.syncCode = none) := by
      simp [h1, h2]
    unfold pushChanges
    rw [if_neg h3]
    rfl

theorem baseline_latch_enforced_by_orchestrator_witness :
    debouncedPushFires ⟨false, false, false⟩ true = false ∧
    pushChanges ⟨none, "dev-1", false, none⟩ ⟨[], [], []⟩ true 1 2 =
      ⟨false, none, ⟨none, "dev-1", false, none⟩⟩ :=
  ⟨(baseline_latch_enforced_by_orchestrator ⟨false, false, false⟩ true true
      ⟨none, "dev-1", false, none⟩ ⟨[], [], []⟩ true 1 2 rfl).1,
    (baseline_latch_enforced_by_orchestrator ⟨false, false, false⟩ true true
      ⟨none, "dev-1", false, none⟩ ⟨[], [], []⟩ true 1 2 rfl).2.2.1
      (Or.inl rfl)⟩

/-- C5: a subscription snapshot carrying this session's own device id
causes no local mutation: the data callback is not invoked, no session
state is saved (so `lastSyncedAt` is unchanged), and no room-missing
recovery fires. -/
theorem selfEcho_suppressed (state : SyncState) (data : SyncData)
    (now : Int) (h : data.deviceId = state.deviceId) :
    handleSnapshot state (some data) now = ⟨false, none, none⟩ := by
  unfold handleSnapshot
  show (if data.deviceId ≠ state.deviceId then
      SnapshotEffect.mk false (some data)
        (some { state with lastSyncedAt := some now })
    else ⟨false, none, none⟩) = ⟨false, none, none⟩
  rw [if_neg (fun hh => hh h)]

theorem selfEcho_suppressed_witness :
    ((⟨[], [], [], some 100, "dev-1"⟩ : SyncData).deviceId =
      (⟨some "STAR-7X9K", "dev-1", true, some 7⟩ : SyncState).deviceId) ∧
    handleSnapshot ⟨some "STAR-7X9K", "dev-1", true, some 7⟩
      (some ⟨[], [], [], some 100, "dev-1"⟩) 200 = ⟨false, none, none⟩ :=
  ⟨rfl, selfEcho_suppressed ⟨some "STAR-7X9K", "dev-1", true, some 7⟩
    ⟨[], [], [], some 100, "dev-1"⟩ 200 rfl⟩

/-- C6 counterexample: a snapshot written by the subscribing device
itself ("dev-1") is not delivered to the data callback — it is filtered
inside `subscribeToChanges`, so the subscriber does not deliver a
callback for every remote write including the device's own. -/
theorem subscriber_filters_self_counterexample :
    (handleSnapshot ⟨some "STAR-7X9K", "dev-1", true, some 0⟩
      (some ⟨[], [], [], some 100, "dev-1"⟩) 200).dataDelivered = none := by
  rfl

/-- C6 amended: self-snapshot filtering happens inside
`subscribeToChanges` itself: its handler invokes the data callback for
exactly the snapshots whose `deviceId` differs from the session's, while
the orchestrator's `onDataChange` callback applies every snapshot it
receives without inspecting `deviceId`. -/
theorem snapshot_filter_in_subscriber (state : SyncState) (data : SyncData)
    (now : Int) (flags : OrchFlags) :
    (handleSnapshot state (some data) now).dataDelivered =
      (if data.deviceId = state.deviceId then none else some data) ∧
    orchOnDataChange false flags data =
      ({ flags with hasRemoteBaseline := true }, some data) := by
  constructor
  · show (if data.deviceId ≠ state.deviceId then
        SnapshotEffect.mk false (some data)
          (some { state with lastSyncedAt := some now })
      else ⟨false, none, none⟩).dataDelivered =
      (if data.deviceId = state.deviceId then none else some data)
    by_cases h : data.deviceId = state.deviceId
    · rw [if_neg (fun hh => hh h), if_pos h]
    · rw [if_pos h, if_neg h]
  · rfl

/-- C7: over any sequence of subscription events delivered in one
session, at most one recreate push is issued; none at all if the
baseline latch was already satisfied at the start. -/
theorem roomMissing_recovery_at_most_once (b : Bool)
    (evs : List SessionEvent) :
    recreateCount b evs ≤ 1 ∧ (b = true → recreateCount b evs = 0) := by
  have hzero : ∀ l : List SessionEvent, recreateCount true l = 0 := by
    intro l
    induction l with
    | nil => rfl
    | cons e rest ih =>
      cases e with
      | roomMissing =>
        simpa [recreateCount, stepSession, handleRoomMissing] using ih
      | foreignSnapshot d =>
        simpa [recreateCount, stepSession] using ih
  constructor
  · induction evs generalizing b with
    | nil => simp [recreateCount]
    | cons e rest ih =>
      cases b with
      | true =>
        rw [hzero (e :: rest)]
        omega
      | false =>
        cases e with
        | roomMissing =>
          simp [recreateCount, stepSession, handleRoomMissing, hzero rest]
        | foreignSnapshot d =>
          simp [recreateCount, stepSession, hzero rest]
  · intro hb
    subst hb
    exact hzero evs

theorem roomMissing_recovery_witness :
    recreateCount false [SessionEvent.roomMissing, SessionEvent.roomMissing] ≤ 1 ∧
    (true = true → recreateCount true [SessionEvent.roomMissing] = 0) :=
  ⟨(roomMissing_recovery_at_most_once false
      [SessionEvent.roomMissing, SessionEvent.roomMissing]).1,
    (roomMissing_recovery_at_most_once true [SessionEvent.roomMissing]).2⟩

/-- C8 counterexample: a foreign snapshot with `lastUpdated = 1000` is
applied at wall-clock time 99999; the session's `lastSyncedAt` becomes
99999 (`Date.now()`), not the snapshot's 1000. -/
theorem lastSynced_wallclock_counterexample :
    ((handleSnapshot ⟨some "STAR-7X9K", "dev-1", true, some 0⟩
        (some ⟨[], [], [], some 1000, "dev-2"⟩) 99999).savedState.map
      SyncState.lastSyncedAt) = some (some 99999) ∧
    ¬ ((99999 : Int) = 1000) := by
  refine ⟨rfl, by decide⟩

/-- C8 amended: on applying a snapshot from another device, the session's
`lastSyncedAt` is set to the current wall-clock time `Date.now()`, while
the snapshot's `lastUpdated` (when present) is what `applyRemoteData`
records in the orchestrator's local last-updated marker (falling back to
the current time when the snapshot has no timestamp). -/
theorem applyRemote_timestamps (state : SyncState) (data : SyncData)
    (now : Int) (h : data.deviceId ≠ state.deviceId) :
    (handleSnapshot state (some data) now).savedState =
      some { state with lastSyncedAt := some now } ∧
    (∀ t, data.lastUpdated = some t →
      (applyRemoteData data now).localUpdatedAtSet = t) ∧
    (data.lastUpdated = none →
      (applyRemoteData data now).localUpdatedAtSet = now) := by
  refine ⟨?_, ?_, ?_⟩
  · show (if data.deviceId ≠ state.deviceId then
        SnapshotEffect.mk false (some data)
          (some { state with lastSyncedAt := some now })
      else ⟨false, none, none⟩).savedState =
      some { state with lastSyncedAt := some now }
    rw [if_pos h]
  · intro t ht
    simp [applyRemoteData, ht]
  · intro ht
    simp [applyRemoteData, ht]

theorem applyRemote_timestamps_witness :
    ((⟨[], [], [], some 1000, "dev-2"⟩ : SyncData).deviceId ≠
      (⟨some "STAR-7X9K", "dev-1", true, some 0⟩ : SyncState).deviceId) ∧
    (handleSnapshot ⟨some "STAR-7X9K", "dev-1", true, some 0⟩
        (some ⟨[], [], [], some 1000, "dev-2"⟩) 99999).savedState =
      some ⟨some "STAR-7X9K", "dev-1", true, some 99999⟩ ∧
    (applyRemoteData ⟨[], [], [], some 1000, "dev-2"⟩ 99999).localUpdatedAtSet =
      1000 :=
  ⟨by decide,
    (applyRemote_timestamps ⟨some "STAR-7X9K", "dev-1", true, some 0⟩
      ⟨[], [], [], some 1000, "dev-2"⟩ 99999 (by decide)).1,
    (applyRemote_timestamps ⟨some "STAR-7X9K", "dev-1", true, some 0⟩
      ⟨[], [], [], some 1000, "dev-2"⟩ 99999 (by decide)).2.1 1000 rfl⟩

/-- C10: `joinSyncRoom` collapses a transport failure and a missing
document into the same `none` result with identical persisted state, and
the Enable path then behaves identically in the two cases: it proceeds to
subscribe and reaches `connected` (not `error`) when the subscription
attaches. -/
theorem joinFailure_indistinguishable (state : SyncState) (code : String)
    (ldata : LocalData) (lu : Option Int) (now serverNow : Int) :
    joinSyncRoom state code (Except.error ()) now =
      joinSyncRoom state code (Except.ok none) now ∧
    setupSyncRun state ldata lu (Except.error ()) true now serverNow =
      setupSyncRun state ldata lu (Except.ok none) true now serverNow ∧
    (state.enabled = true → state.syncCode ≠ none →
      (setupSyncRun state ldata lu (Except.error ()) true now serverNow).status =
        SyncStatus.connected) := by
  refine ⟨rfl, rfl, ?_⟩
  intro h1 h2
  unfold setupSyncRun
  rw [h1]
  cases hc : state.syncCode with
  | none => exact absurd hc h2
  | some c => rfl

theorem joinFailure_indistinguishable_witness :
    joinSyncRoom ⟨some "STAR-7X9K", "dev-1", true, none⟩ "STAR-7X9K"
        (Except.error ()) 3 =
      joinSyncRoom ⟨some "STAR-7X9K", "dev-1", true, none⟩ "STAR-7X9K"
        (Except.ok none) 3 ∧
    (setupSyncRun ⟨some "STAR-7X9K", "dev-1", true, none⟩ ⟨[], [], []⟩ none
        (Except.error ()) true 3 4).status = SyncStatus.connected :=
  ⟨(joinFailure_indistinguishable ⟨some "STAR-7X9K", "dev-1", true, none⟩
      "STAR-7X9K" ⟨[], [], []⟩ none 3 4).1,
    (joinFailure_indistinguishable ⟨some "STAR-7X9K", "dev-1", true, none⟩
      "STAR-7X9K" ⟨[], [], []⟩ none 3 4).2.2 rfl (by decide)⟩

/-- C2 counterexample: room document present, both sides non-empty,
`|remoteUpdatedAt − localUpdatedAt| = 0 < 5000 ms`, yet the Enable path
performs no remote write and adopts the remote todos instead of the
merged collection — `setupSync` never runs the Record Merger. -/
theorem setupSync_no_merge_counterexample :
    ((100000 : Int) - 100000).natAbs < 5000 ∧
    (setupSyncStep ⟨some "STAR-7X9K", "dev-1", true, some 0⟩
        ⟨[⟨"b", some 20, none, 0⟩], [], [], some 100000, "dev-2"⟩
        ⟨[⟨"a", some 10, none, 0⟩], [], []⟩ (some 100000) 100001 100002).2 =
      none ∧
    ¬ ((setupSyncStep ⟨some "STAR-7X9K", "dev-1", true, some 0⟩
        ⟨[⟨"b", some 20, none, 0⟩], [], [], some 100000, "dev-2"⟩
        ⟨[⟨"a", some 10, none, 0⟩], [], []⟩ (some 100000) 100001 100002).1.todos =
      mergeByIdAndTimestamp [⟨"a", some 10, none, 0⟩] [⟨"b", some 20, none, 0⟩]) := by
  refine ⟨by decide, by decide, by decide⟩

/-- C2 amended: the Enable-with-known-code path never merges: with the
room document present it either adopts the remote collections unchanged
(performing no remote write), pushes the local snapshot unchanged, or
leaves both sides alone; in particular when the two timestamps are within
1000 ms of each other and both sides hold records it adopts the remote
(tie-break), rather than merging — the 5000 ms merge rule exists only in
`forceSync`. -/
theorem setupSync_never_merges (state : SyncState) (remote : SyncData)
    (ldata : LocalData) (lu : Option Int) (now serverNow : Int) :
    (setupSyncStep state remote ldata lu now serverNow =
        (⟨remote.todos, remote.routines, remote.notes⟩, none) ∨
      setupSyncStep state remote ldata lu now serverNow =
        (ldata, (pushChanges state ldata true now serverNow).written) ∨
      setupSyncStep state remote ldata lu now serverNow = (ldata, none)) ∧
    (∀ r l, remote.lastUpdated = some r → lu = some l →
      (r - l).natAbs ≤ 1000 → 0 < remoteCount remote → 0 < localCount ldata →
      setupSyncStep state remote ldata lu now serverNow =
        (⟨remote.todos, remote.routines, remote.notes⟩, none)) := by
  constructor
  · unfold setupSyncStep
    cases setupSyncDecision remote (localCount ldata) lu with
    | applyRemote => left; rfl
    | pushLocal => right; left; rfl
    | keep => right; right; rfl
  · intro r l hr hl hab hrc hlc
    have h1 : ¬ (r > l + 1000) := by omega
    have h2 : ¬ (l > r + 1000) := by omega
    have h3 : ¬ (localCount ldata = 0) := by omega
    have h4 : ¬ (remoteCount remote = 0) := by omega
    have hdec : setupSyncDecision remote (localCount ldata) lu =
        SetupAction.applyRemote := by
      simp only [setupSyncDecision, hr, hl, looksNewer]
      simp [h1, h2, h3, h4, hrc]
    unfold setupSyncStep
    rw [hdec]

theorem setupSync_never_merges_witness :
    ((3000 : Int) - 2500).natAbs ≤ 1000 ∧
    0 < remoteCount ⟨[⟨"b", some 20, none, 0⟩], [], [], some 3000, "dev-2"⟩ ∧
    0 < localCount ⟨[⟨"a", some 10, none, 0⟩], [], []⟩ ∧
    setupSyncStep ⟨some "STAR-7X9K", "dev-1", true, some 0⟩
        ⟨[⟨"b", some 20, none, 0⟩], [], [], some 3000, "dev-2"⟩
        ⟨[⟨"a", some 10, none, 0⟩], [], []⟩ (some 2500) 5 6 =
      (⟨[⟨"b", some 20, none, 0⟩], [], []⟩, none) :=
  ⟨by decide, by decide, by decide,
    (setupSync_never_merges ⟨some "STAR-7X9K", "dev-1", true, some 0⟩
        ⟨[⟨"b", some 20, none, 0⟩], [], [], some 3000, "dev-2"⟩
        ⟨[⟨"a", some 10, none, 0⟩], [], []⟩ (some 2500) 5 6).2 3000 2500 rfl rfl
      (by decide) (by decide) (by decide)⟩

/-- C3 counterexample: the remote holds a record and local holds none,
with the remote timestamp 10000 ms older than `lastSyncedAt`; the claim
predicts a pull (return the remote snapshot, no write), but `forceSync`
pushes the empty local snapshot and returns nothing to apply — record
emptiness plays no role in its direction rule. -/
theorem forceSync_emptiness_counterexample :
    0 < remoteCount ⟨[⟨"r", some 1, none, 0⟩], [], [], some 10000, "dev-2"⟩ ∧
    localCount ⟨[], [], []⟩ = 0 ∧
    (forceSync ⟨some "STAR-7X9K", "dev-1", true, some 20000⟩
        (some ⟨[⟨"r", some 1, none, 0⟩], [], [], some 10000, "dev-2"⟩)
        ⟨[], [], []⟩ 30000 30001).returnedData = none ∧
    (forceSync ⟨some "STAR-7X9K", "dev-1", true, some 20000⟩
        (some ⟨[⟨"r", some 1, none, 0⟩], [], [], some 10000, "dev-2"⟩)
        ⟨[], [], []⟩ 30000 30001).written =
      some ⟨[], [], [], some 30001, "dev-1"⟩ := by
  refine ⟨by decide, rfl, by decide, by decide⟩

/-- C3 amended: `forceSync` on an existing room decides purely by
timestamps: within 5000 ms it merges each record kind, writes the merged
result and returns it for local application; otherwise, when the remote
is strictly newer it pulls (returns the remote document, no write), else
it pushes the local snapshot (returning nothing) — record counts are
never consulted. With `remote.lastUpdated = lastSyncedAt + 10000` it
always resolves to pull. -/
theorem forceSync_direction (state : SyncState) (remoteDoc : SyncData)
    (ldata : LocalData) (now serverNow : Int)
    (hen : state.enabled = true) (hcode : state.syncCode ≠ none) :
    (((remoteDoc.lastUpdated.getD 0) - (state.lastSyncedAt.getD 0)).natAbs < 5000 →
      forceSync state (some remoteDoc) ldata now serverNow =
        ⟨true,
          some ⟨(mergeData ldata remoteDoc).todos,
            (mergeData ldata remoteDoc).routines,
            (mergeData ldata remoteDoc).notes,
            remoteDoc.lastUpdated, state.deviceId⟩,
          some ⟨(mergeData ldata remoteDoc).todos,
            (mergeData ldata remoteDoc).routines,
            (mergeData ldata remoteDoc).notes,
            some serverNow, state.deviceId⟩,
          { state with lastSyncedAt := some now }⟩) ∧
    (¬ ((remoteDoc.lastUpdated.getD 0) - (state.lastSyncedAt.getD 0)).natAbs < 5000 →
      remoteDoc.lastUpdated.getD 0 > state.lastSyncedAt.getD 0 →
      forceSync state (some remoteDoc) ldata now serverNow =
        ⟨true, some remoteDoc, none, { state with lastSyncedAt := some now }⟩) ∧
    (¬ ((remoteDoc.lastUpdated.getD 0) - (state.lastSyncedAt.getD 0)).natAbs < 5000 →
      ¬ remoteDoc.lastUpdated.getD 0 > state.lastSyncedAt.getD 0 →
      forceSync state (some remoteDoc) ldata now serverNow =
        ⟨true, none,
          some ⟨ldata.todos, ldata.routines, ldata.notes, some serverNow,
            state.deviceId⟩,
          { state with lastSyncedAt := some now }⟩) ∧
    (∀ t0, state.lastSyncedAt = some t0 →
      remoteDoc.lastUpdated = some (t0 + 10000) →
      forceSync state (some remoteDoc) ldata now serverNow =
        ⟨true, some remoteDoc, none, { state with lastSyncedAt := some now }⟩) := by
  have hno : ¬ (state.enabled = false ∨ state.syncCode = none) := by
    simp [hen, hcode]
  refine ⟨?_, ?_, ?_, ?_⟩
  · intro h
    simp only [forceSync]
    rw [if_neg hno, if_pos h]
  · intro h hgt
    simp only [forceSync]
    rw [if_neg hno, if_neg h, if_pos hgt]
  · intro h hgt
    simp only [forceSync]
    rw [if_neg hno, if_neg h, if_neg hgt]
  · intro t0 h1 h2
    simp only [forceSync, h1, h2, Option.getD_some]
    rw [if_neg hno]
    have hd : ¬ ((t0 + 10000 - t0).natAbs < 5000) := by omega
    have hgt : t0 + 10000 > t0 := by omega
    rw [if_neg hd, if_pos hgt]

theorem forceSync_direction_witness :
    forceSync ⟨some "STAR-7X9K", "dev-1", true, some 50000⟩
        (some ⟨[⟨"r", some 1, none, 0⟩], [], [], some 60000, "dev-2"⟩)
        ⟨[], [], []⟩ 70000 70001 =
      ⟨true, some ⟨[⟨"r", some 1, none, 0⟩], [], [], some 60000, "dev-2"⟩, none,
        ⟨some "STAR-7X9K", "dev-1", true, some 70000⟩⟩ :=
  (forceSync_direction ⟨some "STAR-7X9K", "dev-1", true, some 50000⟩
      ⟨[⟨"r", some 1, none, 0⟩], [], [], some 60000, "dev-2"⟩ ⟨[], [], []⟩
      70000 70001 rfl (by decide)).2.2.2 50000 rfl rfl
